import Mathlib

/-!
Verification of the UX-Survey application's deterministic core: the
text-to-survey parser (`convertTextToSurvey`), the response aggregator
(`aggregateResponses`, rating branch), the five survey-scoring formulas
(`SURVEY_TYPES[*].calculateScore`), the survey-status writes, and the
response-submission payload (`TakeSurvey.handleSubmit`), all shallowly
embedded from `src/app/create/page.tsx` and the respond page.

JavaScript semantics modelled explicitly where they matter:
- string relational operators (`<=`, `>=`) are lexicographic by code unit
  (`jsStrLe`), not numeric;
- `parseInt` skips whitespace, accepts a sign and an optional hex prefix,
  and returns NaN (here `none`) when no digit follows (`parseIntJS`);
- NaN propagates through arithmetic (`Option Int` / `Option ℚ`, with
  `none` = NaN); JS numbers on the exactly-representable inputs used by
  the formulas are modelled as ℚ;
- `Object.entries` iteration order: canonical array-index keys in
  ascending numeric order first, then remaining string keys in insertion
  order (`jsEntries`);
- `||` default: `undefined`, the empty string and numeric 0 are falsy.
-/

/-- JS whitespace characters relevant to `String.prototype.trim` and
`\s` for inputs already split on newlines (ASCII whitespace plus NBSP). -/
def isJsWs (c : Char) : Bool :=
  c = ' ' || c = '\t' || c = '\n' || c = '\r' ||
  c = Char.ofNat 11 || c = Char.ofNat 12 || c = Char.ofNat 160

/-- `String.prototype.trim`: strip leading and trailing whitespace. -/
def jsTrim (s : String) : String :=
  ⟨((s.data.dropWhile isJsWs).reverse.dropWhile isJsWs).reverse⟩

/-- `text.split('\n')` on the character list: never empty, keeps empty
segments (JS `"".split('\n') = [""]`). -/
def splitNl : List Char → List (List Char)
  | [] => [[]]
  | c :: rest =>
    if c = '\n' then [] :: splitNl rest
    else
      match splitNl rest with
      | h :: t => (c :: h) :: t
      | [] => [[c]]

/-- `text.split('\n')` as strings. -/
def rawLines (text : String) : List String :=
  (splitNl text.data).map (fun l => ⟨l⟩)

/-- `text.split('\n').filter(line => line.trim())`: the blank-filtered
line list the parser works on throughout. -/
def filteredLines (text : String) : List String :=
  (rawLines text).filter (fun l => jsTrim l ≠ "")

/-- Lexicographic (code-unit) strict comparison, JS `a < b` on strings. -/
def jsLtChars : List Char → List Char → Bool
  | [], [] => false
  | [], _ :: _ => true
  | _ :: _, [] => false
  | a :: as, b :: bs =>
    if a < b then true
    else if b < a then false
    else jsLtChars as bs

/-- JS `a <= b` on strings: not `b < a`. -/
def jsStrLe (a b : String) : Bool := !(jsLtChars b.data a.data)

/-- Decimal digit run to a natural number. -/
def digitsVal (cs : List Char) : Nat :=
  cs.foldl (fun n c => n * 10 + (c.toNat - 48)) 0

/-- Hex digit test. -/
def isHexDigit (c : Char) : Bool :=
  c.isDigit || ('a' ≤ c && c ≤ 'f') || ('A' ≤ c && c ≤ 'F')

/-- Hex digit value. -/
def hexVal (c : Char) : Nat :=
  if c.isDigit then c.toNat - 48
  else if 'a' ≤ c && c ≤ 'f' then c.toNat - 87
  else c.toNat - 55

/-- Unsigned part of JS `parseInt` (radix 10 default, `0x` hex prefix):
`none` is NaN. -/
def parseIntUnsigned (cs : List Char) : Option Nat :=
  match cs with
  | '0' :: 'x' :: rest =>
    let ds := rest.takeWhile isHexDigit
    if ds = [] then some 0 else some (ds.foldl (fun n c => n * 16 + hexVal c) 0)
  | '0' :: 'X' :: rest =>
    let ds := rest.takeWhile isHexDigit
    if ds = [] then some 0 else some (ds.foldl (fun n c => n * 16 + hexVal c) 0)
  | _ =>
    let ds := cs.takeWhile Char.isDigit
    if ds = [] then none else some (digitsVal ds)

/-- JS `parseInt(s)`: leading whitespace, optional sign, longest digit
prefix; `none` models NaN. -/
def parseIntJS (s : String) : Option Int :=
  match s.data.dropWhile isJsWs with
  | '+' :: rest => (parseIntUnsigned rest).map (fun n => (n : Int))
  | '-' :: rest => (parseIntUnsigned rest).map (fun n => -(n : Int))
  | rest => (parseIntUnsigned rest).map (fun n => (n : Int))

/-- JS `x >= n` where `x` may be NaN: NaN comparisons are false. -/
def jsGeNum (x : Option Int) (n : Int) : Bool :=
  match x with
  | none => false
  | some v => n ≤ v

/-- JS `x <= n` where `x` may be NaN: NaN comparisons are false. -/
def jsLeNum (x : Option Int) (n : Int) : Bool :=
  match x with
  | none => false
  | some v => v ≤ n

/-- NaN-propagating addition on JS numbers restricted to integers. -/
def jsAdd (a b : Option Int) : Option Int :=
  match a, b with
  | some x, some y => some (x + y)
  | _, _ => none

/-- `reduce((sum, score) => sum + score, 0)` with NaN propagation. -/
def jsSumO (l : List (Option Int)) : Option Int :=
  l.foldl jsAdd (some 0)

/-- ASCII `toLowerCase`. -/
def lowStr (s : String) : String := ⟨s.data.map Char.toLower⟩

/-- `interface SurveyAnswer { question_id: string; response: string }`. -/
structure SurveyAnswer where
  question_id : String
  response : String
deriving DecidableEq, Repr

/-- `interface SurveyResponseData { id; created_at; answers }`. -/
structure SurveyResponseData where
  id : String
  created_at : String
  answers : List SurveyAnswer
deriving DecidableEq, Repr

/-- NPS `const scores = responses.flatMap(r => r.answers.filter(a =>
a.response >= '0' && a.response <= '10').map(a => parseInt(a.response)))`.
The comparisons are JS string comparisons: lexicographic. -/
def npsScores (responses : List SurveyResponseData) : List (Option Int) :=
  responses.flatMap (fun r =>
    (r.answers.filter (fun a => jsStrLe "0" a.response && jsStrLe a.response "10")).map
      (fun a => parseIntJS a.response))

/-- `const promoters = scores.filter(score => score >= 9).length`. -/
def npsPromoters (responses : List SurveyResponseData) : Nat :=
  ((npsScores responses).filter (fun s => jsGeNum s 9)).length

/-- `const detractors = scores.filter(score => score <= 6).length`. -/
def npsDetractors (responses : List SurveyResponseData) : Nat :=
  ((npsScores responses).filter (fun s => jsLeNum s 6)).length

/-- `SURVEY_TYPES` nps `calculateScore`. -/
def calcNPS (responses : List SurveyResponseData) : Option ℚ :=
  if npsScores responses = [] then some 0
  else
    some ((((npsPromoters responses : ℚ) / (npsScores responses).length) -
      ((npsDetractors responses : ℚ) / (npsScores responses).length)) * 100)

/-- SUS per-response total: `answers.forEach((answer, index) => ...)`,
even 0-based index contributes `score - 1`, odd contributes `5 - score`,
with NaN propagation. -/
def susTotal (r : SurveyResponseData) : Option Int :=
  r.answers.enum.foldl
    (fun acc p =>
      jsAdd acc ((parseIntJS p.2.response).map
        (fun v => if p.1 % 2 = 0 then v - 1 else 5 - v)))
    (some 0)

/-- SUS `const scores = responses.map(...)`. -/
def susScores (responses : List SurveyResponseData) : List (Option Int) :=
  responses.map susTotal

/-- `SURVEY_TYPES` sus `calculateScore`. -/
def calcSUS (responses : List SurveyResponseData) : Option ℚ :=
  if susScores responses = [] then some 0
  else (jsSumO (susScores responses)).map
    (fun s => (s : ℚ) / (susScores responses).length * (5 / 2))

/-- CSAT filtered scores: string comparison against `'1'`/`'5'`. -/
def csatScores (responses : List SurveyResponseData) : List (Option Int) :=
  responses.flatMap (fun r =>
    (r.answers.filter (fun a => jsStrLe "1" a.response && jsStrLe a.response "5")).map
      (fun a => parseIntJS a.response))

/-- `SURVEY_TYPES` csat `calculateScore`. -/
def calcCSAT (responses : List SurveyResponseData) : Option ℚ :=
  if csatScores responses = [] then some 0
  else (jsSumO (csatScores responses)).map
    (fun s => (s : ℚ) / (csatScores responses).length * 20)

/-- CES filtered scores: string comparison against `'1'`/`'7'`. -/
def cesScores (responses : List SurveyResponseData) : List (Option Int) :=
  responses.flatMap (fun r =>
    (r.answers.filter (fun a => jsStrLe "1" a.response && jsStrLe a.response "7")).map
      (fun a => parseIntJS a.response))

/-- `SURVEY_TYPES` ces `calculateScore`. -/
def calcCES (responses : List SurveyResponseData) : Option ℚ :=
  if cesScores responses = [] then some 0
  else (jsSumO (cesScores responses)).map
    (fun s => (s : ℚ) / (cesScores responses).length)

/-- TSM filtered task scores (1 for success, 0 for failure,
case-insensitive). -/
def tsmScores (responses : List SurveyResponseData) : List Nat :=
  responses.flatMap (fun r =>
    (r.answers.filter (fun a =>
        lowStr a.response = "success" || lowStr a.response = "failure")).map
      (fun a => if lowStr a.response = "success" then 1 else 0))

/-- `const successfulTasks = taskScores.filter(score => score === 1).length`. -/
def tsmSuccesses (responses : List SurveyResponseData) : Nat :=
  ((tsmScores responses).filter (fun s => s = 1)).length

/-- `SURVEY_TYPES` tsm `calculateScore`. -/
def calcTSM (responses : List SurveyResponseData) : Option ℚ :=
  if tsmScores responses = [] then some 0
  else
    some (((tsmSuccesses responses : ℚ) / (tsmScores responses).length) * 100)

/-- `Question.type` values. -/
inductive QType where
  | multiple_choice
  | text
  | rating
  | yes_no
deriving DecidableEq, Repr

/-- `interface Question { id; text; type; options? }`. -/
structure Question where
  id : String
  text : String
  type : QType
  options : Option (List String)
deriving DecidableEq, Repr

/-- `interface Survey { title; description; questions; status? }`. -/
structure Survey where
  title : String
  description : String
  questions : List Question
  status : Option String
deriving DecidableEq, Repr

/-- List-of-chars prefix test used by substring containment. -/
def isPre : List Char → List Char → Bool
  | [], _ => true
  | _ :: _, [] => false
  | a :: as, b :: bs => a = b && isPre as bs

/-- JS `haystack.includes(needle)`: substring containment. -/
def containsSub (needle : List Char) : List Char → Bool
  | [] => needle = []
  | c :: rest => isPre needle (c :: rest) || containsSub needle rest

/-- `low.includes(kw)` on strings. -/
def inclStr (hay kw : String) : Bool := containsSub kw.data hay.data

/-- Regex `^\d+[\.\)]` test plus the `replace(/^\d+[\.\)]\s*/, '')` rest:
`some rest` when the line starts a numbered question, `none` otherwise. -/
def numMarkerRest (cs : List Char) : Option (List Char) :=
  let ds := cs.takeWhile Char.isDigit
  if ds = [] then none
  else
    match cs.drop ds.length with
    | '.' :: rest => some (rest.dropWhile isJsWs)
    | ')' :: rest => some (rest.dropWhile isJsWs)
    | _ => none

/-- Type inference for a newly started question, evaluated on the
lowercased question line; the Bool is whether the `multiple_choice`
branch initializes an empty options array. Both the explicit text-keyword
branch and the fall-through default give `text` with no options. -/
def inferQType (low : String) : QType × Bool :=
  if inclStr low "rate" || inclStr low "scale" || inclStr low "satisfaction" ||
      inclStr low "how satisfied" then
    (QType.rating, false)
  else if inclStr low "do you agree" || inclStr low "would you agree" ||
      inclStr low "is it true" || (inclStr low "yes" && inclStr low "no") then
    (QType.yes_no, false)
  else if inclStr low "select" || inclStr low "choose" || inclStr low "which" ||
      inclStr low "pick" then
    (QType.multiple_choice, true)
  else
    (QType.text, false)

/-- `line.replace(/^[-*]\s*/, '').trim()` for a line known to start with
`-` or `*`. -/
def dashContent (cs : List Char) : String :=
  jsTrim ⟨cs.tail.dropWhile isJsWs⟩

/-- Whether the trimmed line is an option line (`-`/`*` first). -/
def isDashLine (cs : List Char) : Bool :=
  match cs with
  | [] => false
  | c :: _ => c = '-' || c = '*'

/-- One iteration of the question-scanning loop of `convertTextToSurvey`
(state: flushed questions, current in-progress question). -/
def scanStep (s : List Question × Option Question) (rawLine : String) :
    List Question × Option Question :=
  let line := jsTrim rawLine
  if line = "" then s
  else
    match numMarkerRest line.data with
    | some rest =>
      let qs :=
        match s.2 with
        | some c => if c.text ≠ "" then s.1 ++ [c] else s.1
        | none => s.1
      let inferred := inferQType (lowStr line)
      (qs, some ⟨"q" ++ toString (qs.length + 1), ⟨rest⟩, inferred.1,
        if inferred.2 then some [] else none⟩)
    | none =>
      match s.2 with
      | some c =>
        if isDashLine line.data && c.text ≠ "" then
          match c.options with
          | none =>
            (s.1, some ⟨c.id, c.text, QType.multiple_choice, some [dashContent line.data]⟩)
          | some opts =>
            (s.1, some ⟨c.id, c.text, c.type, some (opts ++ [dashContent line.data])⟩)
        else s
      | none => s

/-- The question-scanning loop over the given lines, with final flush of
the last in-progress question. -/
def parseQuestions (ls : List String) : List Question :=
  let st := ls.foldl scanStep ([], none)
  match st.2 with
  | some c => if c.text ≠ "" then st.1 ++ [c] else st.1
  | none => st.1

/-- Case-insensitive literal match returning the rest of the input. -/
def ciMatch : List Char → List Char → Option (List Char)
  | [], cs => some cs
  | _ :: _, [] => none
  | p :: ps, c :: cs => if c.toLower = p.toLower then ciMatch ps cs else none

/-- `replace(/^(Title|Survey|#):\s*/i, '')` on the character list: the
colon sits outside the alternation, so a bare `#` without a colon is not
stripped. -/
def stripLabelRegex (cs : List Char) : List Char :=
  match ciMatch "Title:".data cs with
  | some rest => rest.dropWhile isJsWs
  | none =>
    match ciMatch "Survey:".data cs with
    | some rest => rest.dropWhile isJsWs
    | none =>
      match ciMatch "#:".data cs with
      | some rest => rest.dropWhile isJsWs
      | none => cs

/-- `lines[0]?.replace(/^(Title|Survey|#):\s*/i, '').trim() || 'Untitled
Survey'`. -/
def titleOf (lines : List String) : String :=
  match lines with
  | [] => "Untitled Survey"
  | l :: _ =>
    let t := jsTrim ⟨stripLabelRegex l.data⟩
    if t = "" then "Untitled Survey" else t

/-- `lines[1]?.trim() || 'No description provided'`. -/
def descOf (lines : List String) : String :=
  match lines with
  | _ :: l :: _ =>
    let d := jsTrim l
    if d = "" then "No description provided" else d
  | _ => "No description provided"

/-- The placeholder question emitted when no questions were parsed. -/
def placeholderQ : Question :=
  ⟨"q1", "No questions were found in the response", QType.text, none⟩

/-- `convertTextToSurvey`: deterministic heuristic transform from
freeform text to a `Survey`; total by construction (the JS function has
no raising path). -/
def convertTextToSurvey (text : String) : Survey :=
  let lines := filteredLines text
  let questions := parseQuestions (lines.drop 2)
  ⟨titleOf lines, descOf lines,
    if questions = [] then [placeholderQ] else questions, none⟩

/-- Association-list lookup modelling JS property read `obj[k]`. -/
def getVal : List (String × Nat) → String → Option Nat
  | [], _ => none
  | p :: ps, k => if p.1 = k then some p.2 else getVal ps k

/-- JS property write `obj[k] = v`: update in place when the key exists,
append otherwise (insertion order preserved). -/
def jsSet (obj : List (String × Nat)) (k : String) (v : Nat) : List (String × Nat) :=
  if (getVal obj k).isSome then
    obj.map (fun p => if p.1 = k then (k, v) else p)
  else obj ++ [(k, v)]

/-- Numeric value of a digit-string key. -/
def keyNat (s : String) : Nat := digitsVal s.data

/-- Canonical array-index key per ECMAScript property ordering: a
canonical decimal string (no leading zero except `"0"` itself) whose
value is at most 2^32 - 2. -/
def isIdxKey (s : String) : Bool :=
  match s.data with
  | [] => false
  | c :: rest =>
    if c = '0' then rest = []
    else s.data.all Char.isDigit && keyNat s < 2 ^ 32 - 1

/-- Insertion into a list sorted by ascending `keyNat`. -/
def insIdx (p : String × Nat) : List (String × Nat) → List (String × Nat)
  | [] => [p]
  | q :: qs => if keyNat p.1 ≤ keyNat q.1 then p :: q :: qs else q :: insIdx p qs

/-- Sort by ascending numeric key value. -/
def sortIdx (l : List (String × Nat)) : List (String × Nat) :=
  l.foldr insIdx []

/-- `Object.entries(obj)` iteration order: array-index keys ascending,
then the remaining keys in insertion order. -/
def jsEntries (obj : List (String × Nat)) : List (String × Nat) :=
  sortIdx (obj.filter (fun p => isIdxKey p.1)) ++
    obj.filter (fun p => !isIdxKey p.1)

/-- The pre-seeded counts object for a rating question: keys "1".."5"
at zero, in insertion order. -/
def ratingSeed : List (String × Nat) :=
  [("1", 0), ("2", 0), ("3", 0), ("4", 0), ("5", 0)]

/-- One tally update:
`aggregatedData[rating] = (aggregatedData[rating] || 0) + 1`. -/
def aggStep (obj : List (String × Nat)) (r : String) : List (String × Nat) :=
  jsSet obj r ((getVal obj r).getD 0 + 1)

/-- The rating branch of `aggregateResponses`: pre-seed then one tally
update per response string. -/
def aggRating (responses : List String) : List (String × Nat) :=
  responses.foldl aggStep ratingSeed

/-- The `data` array produced for a rating question:
`Object.entries(aggregatedData).map(([name, value]) => ({name, value}))`. -/
def ratingData (responses : List String) : List (String × Nat) :=
  jsEntries (aggRating responses)

/-- The row inserted by `handleSubmit` in the create page (the only
fields the code sends; `status` is the literal `'draft'`). -/
structure SurveyRow where
  id : String
  title : String
  description : String
  questions : List Question
  created_at : String
  user_id : String
  status : String
deriving DecidableEq, Repr

/-- `handleSubmit`: the inserted surveys row for a parsed survey. -/
def handleSubmitRow (parsedSurvey : Survey) (surveyId createdAt : String) : SurveyRow :=
  ⟨surveyId, parsedSurvey.title, parsedSurvey.description, parsedSurvey.questions,
    createdAt, "anonymous", "draft"⟩

/-- `setLive`: `update({ status: 'live' })`. -/
def setLiveStatus : String := "live"

/-- `toggleSurveyStatus`: `currentStatus === 'live' ? 'draft' : 'live'`
(UI toggle path, acknowledged by the spec as external). -/
def toggleStatus (currentStatus : String) : String :=
  if currentStatus = "live" then "draft" else "live"

/-- `duplicateSurvey`: the copied row is inserted with `status: 'draft'`. -/
def duplicateStatus : String := "draft"

/-- `TakeSurvey.handleSave`: `update({ status: 'saved' })`. -/
def handleSaveStatus : String := "saved"

/-- A JS value as stored in the TakeSurvey `answers` record
(`Record<string, string | number>`). -/
inductive JSVal where
  | s (v : String)
  | n (v : Int)
deriving DecidableEq, Repr

/-- JS falsiness for the values at hand: empty string and numeric 0. -/
def jsFalsy : JSVal → Bool
  | .s v => v = ""
  | .n v => v = 0

/-- `x || ''`: the empty string when the lookup is undefined or falsy. -/
def jsOrEmptyStr (x : Option JSVal) : JSVal :=
  match x with
  | none => .s ""
  | some v => if jsFalsy v then .s "" else v

/-- Answer-record lookup (`answers[question.id]`). -/
def lookupVal : List (String × JSVal) → String → Option JSVal
  | [], _ => none
  | p :: ps, k => if p.1 = k then some p.2 else lookupVal ps k

/-- One element of the submitted `answers` array. -/
structure SubmittedAnswer where
  question_id : String
  response : JSVal
deriving DecidableEq, Repr

/-- `TakeSurvey.handleSubmit`: `survey.questions.map(question => ({
question_id: question.id, response: answers[question.id] || '' }))`. -/
def handleSubmitAnswers (questions : List Question)
    (answers : List (String × JSVal)) : List SubmittedAnswer :=
  questions.map (fun q => ⟨q.id, jsOrEmptyStr (lookupVal answers q.id)⟩)

/-- C1: the NPS filter `a.response >= '0' && a.response <= '10'` compares
strings lexicographically, so `"9"` and `"3"` fail `<= "10"`; for the
responses `["9","9","10","3"]` only `"10"` survives and the score is 100,
not the 50 the claim (and the code's own documented formula) requires;
a lone `"9"` response — a promoter by the documented formula — even
yields score 0 because the filtered set is empty. -/
theorem c1_nps_lexicographic_filter_bug :
    calcNPS [⟨"r1", "2024-01-01",
      [⟨"q1", "9"⟩, ⟨"q1", "9"⟩, ⟨"q1", "10"⟩, ⟨"q1", "3"⟩]⟩] = some 100 ∧
    calcNPS [⟨"r2", "2024-01-01", [⟨"q1", "9"⟩]⟩] = some 0 := by
  constructor
  · have h1 : npsScores [⟨"r1", "2024-01-01",
        [⟨"q1", "9"⟩, ⟨"q1", "9"⟩, ⟨"q1", "10"⟩, ⟨"q1", "3"⟩]⟩] = [some 10] := by decide
    have h2 : npsPromoters [⟨"r1", "2024-01-01",
        [⟨"q1", "9"⟩, ⟨"q1", "9"⟩, ⟨"q1", "10"⟩, ⟨"q1", "3"⟩]⟩] = 1 := by decide
    have h3 : npsDetractors [⟨"r1", "2024-01-01",
        [⟨"q1", "9"⟩, ⟨"q1", "9"⟩, ⟨"q1", "10"⟩, ⟨"q1", "3"⟩]⟩] = 0 := by decide
    simp only [calcNPS, h1, h2, h3]
    rw [if_neg (by simp)]
    norm_num
  · have h1 : npsScores [⟨"r2", "2024-01-01", [⟨"q1", "9"⟩]⟩] = [] := by decide
    simp [calcNPS, h1]

/-- C3: all survey-status writes in the code. The create-page save
inserts status `draft` and the explicit set-live action writes `live`
(and the acknowledged UI toggle moves between the two), but
`TakeSurvey.handleSave` writes the status `saved`, which is outside
{draft, live} and outside the code's own declared status union. -/
theorem c3_status_saved_outside_draft_live :
    (∀ (s : Survey) (i t : String), (handleSubmitRow s i t).status = "draft") ∧
    setLiveStatus = "live" ∧
    duplicateStatus = "draft" ∧
    (∀ cur, toggleStatus cur ∈ (["draft", "live"] : List String)) ∧
    handleSaveStatus = "saved" ∧
    handleSaveStatus ∉ (["draft", "live"] : List String) := by
  refine ⟨fun _ _ _ => rfl, rfl, rfl, fun cur => ?_, rfl, by decide⟩
  unfold toggleStatus
  split <;> simp

/-- C8: each scoring formula returns 0 when its filtered answer set is
empty (for SUS, when the response list is empty), so no formula divides
by zero. -/
theorem c8_formulas_zero_on_empty :
    (∀ rs, npsScores rs = [] → calcNPS rs = some 0) ∧
    (∀ rs : List SurveyResponseData, rs = [] → calcSUS rs = some 0) ∧
    (∀ rs, csatScores rs = [] → calcCSAT rs = some 0) ∧
    (∀ rs, cesScores rs = [] → calcCES rs = some 0) ∧
    (∀ rs, tsmScores rs = [] → calcTSM rs = some 0) := by
  refine ⟨fun rs h => ?_, fun rs h => ?_, fun rs h => ?_, fun rs h => ?_, fun rs h => ?_⟩
  · simp [calcNPS, h]
  · subst h; rfl
  · simp [calcCSAT, h]
  · simp [calcCES, h]
  · simp [calcTSM, h]

/-- Witness for C8 at the empty response set. -/
theorem c8_formulas_zero_on_empty_witness :
    calcNPS [] = some 0 ∧ calcSUS [] = some 0 ∧ calcCSAT [] = some 0 ∧
    calcCES [] = some 0 ∧ calcTSM [] = some 0 :=
  ⟨c8_formulas_zero_on_empty.1 [] rfl,
   c8_formulas_zero_on_empty.2.1 [] rfl,
   c8_formulas_zero_on_empty.2.2.1 [] rfl,
   c8_formulas_zero_on_empty.2.2.2.1 [] rfl,
   c8_formulas_zero_on_empty.2.2.2.2 [] rfl⟩

/-- C10: the submitted answers array has exactly one element per survey
question, in question order, with `question_id` equal to the question's
id, and the response defaults to the empty string when the answers
record holds nothing for that question. -/
theorem c10_submission_one_answer_per_question :
    ∀ (questions : List Question) (answers : List (String × JSVal)) (i : Nat),
    (handleSubmitAnswers questions answers).length = questions.length ∧
    ((handleSubmitAnswers questions answers)[i]?).map SubmittedAnswer.question_id =
      (questions[i]?).map Question.id ∧
    (∀ q, questions[i]? = some q → lookupVal answers q.id = none →
      (handleSubmitAnswers questions answers)[i]? = some ⟨q.id, JSVal.s ""⟩) := by
  intro qs ans i
  refine ⟨by simp [handleSubmitAnswers], ?_, ?_⟩
  · simp [handleSubmitAnswers, List.getElem?_map, Option.map_map]
    rfl
  · intro q hq hnone
    simp [handleSubmitAnswers, List.getElem?_map, hq, jsOrEmptyStr, hnone]

/-- Witness for C10: a two-question survey with only the first question
answered; the second submitted answer is `(q2, "")`. -/
theorem c10_submission_witness :
    (handleSubmitAnswers
        [⟨"q1", "A", QType.text, none⟩, ⟨"q2", "B", QType.text, none⟩]
        [("q1", JSVal.s "hello")]).length = 2 ∧
    (handleSubmitAnswers
        [⟨"q1", "A", QType.text, none⟩, ⟨"q2", "B", QType.text, none⟩]
        [("q1", JSVal.s "hello")])[1]? = some ⟨"q2", JSVal.s ""⟩ := by
  refine ⟨(c10_submission_one_answer_per_question
      [⟨"q1", "A", QType.text, none⟩, ⟨"q2", "B", QType.text, none⟩]
      [("q1", JSVal.s "hello")] 1).1, ?_⟩
  exact (c10_submission_one_answer_per_question
      [⟨"q1", "A", QType.text, none⟩, ⟨"q2", "B", QType.text, none⟩]
      [("q1", JSVal.s "hello")] 1).2.2 ⟨"q2", "B", QType.text, none⟩ (by decide) (by decide)

/-- C2: the parser is total by construction (the embedded function has
no failure path), always returns at least one question, and returns
exactly the placeholder question (id `q1`, the fixed text, type `text`)
whenever the question scan produced nothing. -/
theorem c2_parser_total_placeholder :
    ∀ t : String,
    (convertTextToSurvey t).questions ≠ [] ∧
    (parseQuestions ((filteredLines t).drop 2) = [] →
      (convertTextToSurvey t).questions = [placeholderQ]) := by
  intro t
  constructor
  · unfold convertTextToSurvey
    dsimp only
    split
    · simp
    · assumption
  · intro h
    simp [convertTextToSurvey, h]

/-- Witness for C2 at the empty input. -/
theorem c2_parser_total_placeholder_witness :
    parseQuestions ((filteredLines "").drop 2) = [] ∧
    (convertTextToSurvey "").questions = [placeholderQ] :=
  ⟨by decide, (c2_parser_total_placeholder "").2 (by decide)⟩

/-- C9 counterexample: the code drops blank lines globally before any
processing, not just for title/description. For `"\n1. A\n2. B"` the
blank first raw line makes the two numbered lines become title and
description, and the (blank-filtered) scan sees no question at all,
while a scan over the raw lines from the third line onward would parse
`2. B` as a question. -/
theorem c9_counterexample_global_blank_filter :
    (convertTextToSurvey "\n1. A\n2. B").questions = [placeholderQ] ∧
    parseQuestions ((filteredLines "\n1. A\n2. B").drop 2) = [] ∧
    parseQuestions ((rawLines "\n1. A\n2. B").drop 2) =
      [⟨"q1", "B", QType.text, none⟩] ∧
    parseQuestions ((filteredLines "\n1. A\n2. B").drop 2) ≠
      parseQuestions ((rawLines "\n1. A\n2. B").drop 2) := by
  refine ⟨by decide, by decide, by decide, by decide⟩

/-- C9 amended: blank lines are dropped once, globally, before both
title/description extraction and the question scan; the whole parse
result depends only on the blank-filtered line sequence, so inserting
or removing blank lines anywhere never changes the output. -/
theorem c9_amended_parse_factors_through_nonblank_lines :
    ∀ t₁ t₂ : String, filteredLines t₁ = filteredLines t₂ →
    convertTextToSurvey t₁ = convertTextToSurvey t₂ := by
  intro t₁ t₂ h
  unfold convertTextToSurvey
  rw [h]

/-- Witness for the amended C9: inserting a blank line between `a` and
`b` does not change the parse. -/
theorem c9_amended_witness :
    filteredLines "a\n\nb" = filteredLines "a\nb" ∧
    convertTextToSurvey "a\n\nb" = convertTextToSurvey "a\nb" :=
  ⟨by decide, c9_amended_parse_factors_through_nonblank_lines "a\n\nb" "a\nb" (by decide)⟩

/-- A line whose first character is `-` or `*` starts with no digit, so
the numbered-question regex does not match it. -/
theorem numMarkerRest_of_dash (cs : List Char) (h : isDashLine cs = true) :
    numMarkerRest cs = none := by
  cases cs with
  | nil => simp [isDashLine] at h
  | cons c rest =>
    simp only [isDashLine, Bool.or_eq_true, decide_eq_true_eq] at h
    have hd : c.isDigit = false := by
      rcases h with h | h <;> subst h <;> decide
    simp [numMarkerRest, List.takeWhile_cons, hd]

/-- A dash line is nonempty, hence not the blank line the loop skips. -/
theorem dash_line_ne_empty (line : String) (h : isDashLine line.data = true) :
    line ≠ "" := by
  intro he
  subst he
  simp [isDashLine] at h

/-- C5: parsing `"Title: T\nDesc\n1. What is your name?\n2. Rate our
service\n- a\n- b"` gives title `T`, description `Desc`, a text question
and a multiple-choice question with options a, b (the rating inference
for question 2 is overridden by the dash lines); moreover the first dash
line after a question with no options array switches it to
multiple_choice and initializes the options with that single option,
later dash lines only append (options initialized at most once, type
untouched), and a dash line with no current question changes nothing. -/
theorem c5_example_and_dash_precedence :
    (convertTextToSurvey "Title: T\nDesc\n1. What is your name?\n2. Rate our service\n- a\n- b" =
      ⟨"T", "Desc",
        [⟨"q1", "What is your name?", QType.text, none⟩,
         ⟨"q2", "Rate our service", QType.multiple_choice, some ["a", "b"]⟩], none⟩) ∧
    (∀ (qs : List Question) (c : Question) (line : String),
      c.text ≠ "" → c.options = none → isDashLine (jsTrim line).data = true →
      scanStep (qs, some c) line =
        (qs, some ⟨c.id, c.text, QType.multiple_choice,
          some [dashContent (jsTrim line).data]⟩)) ∧
    (∀ (qs : List Question) (c : Question) (line : String) (opts : List String),
      c.text ≠ "" → c.options = some opts → isDashLine (jsTrim line).data = true →
      scanStep (qs, some c) line =
        (qs, some ⟨c.id, c.text, c.type,
          some (opts ++ [dashContent (jsTrim line).data])⟩)) ∧
    (∀ (qs : List Question) (line : String), isDashLine (jsTrim line).data = true →
      scanStep (qs, none) line = (qs, none)) := by
  refine ⟨by decide, ?_, ?_, ?_⟩
  · intro qs c line ht ho hd
    have hne : jsTrim line ≠ "" := dash_line_ne_empty _ hd
    simp [scanStep, hne, numMarkerRest_of_dash _ hd, hd, ht, ho]
  · intro qs c line opts ht ho hd
    have hne : jsTrim line ≠ "" := dash_line_ne_empty _ hd
    simp [scanStep, hne, numMarkerRest_of_dash _ hd, hd, ht, ho]
  · intro qs line hd
    by_cases hne : jsTrim line = ""
    · simp [scanStep, hne]
    · simp [scanStep, hne, numMarkerRest_of_dash _ hd]

/-- Witness for C5: the dash rules at concrete inputs — first dash line
initializes, second appends, and a dash line with no current question is
dropped. -/
theorem c5_example_and_dash_precedence_witness :
    scanStep ([], some ⟨"q1", "Rate our service", QType.rating, none⟩) "- a" =
      ([], some ⟨"q1", "Rate our service", QType.multiple_choice, some ["a"]⟩) ∧
    scanStep ([], some ⟨"q1", "Rate our service", QType.multiple_choice, some ["a"]⟩) "- b" =
      ([], some ⟨"q1", "Rate our service", QType.multiple_choice, some ["a", "b"]⟩) ∧
    scanStep ([], none) "- a" = ([], none) := by
  refine ⟨?_, ?_, ?_⟩
  · exact (c5_example_and_dash_precedence.2.1 []
      ⟨"q1", "Rate our service", QType.rating, none⟩ "- a"
      (by decide) rfl (by decide)).trans (by decide)
  · exact (c5_example_and_dash_precedence.2.2.1 []
      ⟨"q1", "Rate our service", QType.multiple_choice, some ["a"]⟩ "- b" ["a"]
      (by decide) rfl (by decide)).trans (by decide)
  · exact c5_example_and_dash_precedence.2.2.2 [] "- a" (by decide)

/-- The id sequence `q1, ..., qn`. -/
def idsPattern (n : Nat) : List String :=
  (List.range n).map (fun i => "q" ++ toString (i + 1))

/-- Scan-state invariant: flushed questions carry ids `q1..qk` in order
and the in-progress question carries `q(k+1)`. -/
def IdsInv (st : List Question × Option Question) : Prop :=
  st.1.map Question.id = idsPattern st.1.length ∧
  ∀ c, st.2 = some c → c.id = "q" ++ toString (st.1.length + 1)

theorem idsPattern_succ (n : Nat) :
    idsPattern (n + 1) = idsPattern n ++ ["q" ++ toString (n + 1)] := by
  simp [idsPattern, List.range_succ]

theorem idsInv_scanStep (qs : List Question) (cur : Option Question) (l : String)
    (h : IdsInv (qs, cur)) : IdsInv (scanStep (qs, cur) l) := by
  obtain ⟨h1, h2⟩ := h
  dsimp only at h1 h2
  unfold scanStep
  dsimp only
  by_cases hne : jsTrim l = ""
  · rw [if_pos hne]; exact ⟨h1, h2⟩
  rw [if_neg hne]
  cases hnum : numMarkerRest (jsTrim l).data with
  | some rest =>
    dsimp only
    cases cur with
    | none =>
      refine ⟨h1, ?_⟩
      intro c hc
      cases hc
      rfl
    | some c0 =>
      dsimp only
      by_cases hct : c0.text = ""
      · rw [if_neg (not_not_intro hct)]
        refine ⟨h1, ?_⟩
        intro c hc
        cases hc
        rfl
      · rw [if_pos hct]
        constructor
        · dsimp only
          rw [List.map_append, h1, List.map_cons, List.map_nil, h2 c0 rfl]
          rw [List.length_append, List.length_cons, List.length_nil]
          rw [idsPattern_succ]
        · intro c hc
          cases hc
          rfl
  | none =>
    dsimp only
    cases cur with
    | none => exact ⟨h1, h2⟩
    | some c0 =>
      dsimp only
      by_cases hcond : (isDashLine (jsTrim l).data && decide (c0.text ≠ "")) = true
      · rw [if_pos hcond]
        cases hopt : c0.options with
        | none =>
          refine ⟨h1, ?_⟩
          intro c hc
          cases hc
          exact h2 c0 rfl
        | some opts =>
          refine ⟨h1, ?_⟩
          intro c hc
          cases hc
          exact h2 c0 rfl
      · rw [if_neg hcond]
        exact ⟨h1, h2⟩

theorem idsInv_foldl (ls : List String) :
    ∀ st, IdsInv st → IdsInv (ls.foldl scanStep st) := by
  induction ls with
  | nil => intro st h; exact h
  | cons l ls ih =>
    intro st h
    obtain ⟨qs, cur⟩ := st
    exact ih _ (idsInv_scanStep qs cur l h)

theorem parseQuestions_ids (ls : List String) :
    (parseQuestions ls).map Question.id = idsPattern (parseQuestions ls).length := by
  have h := idsInv_foldl ls ([], none) ⟨by simp [idsPattern], by intro c hc; cases hc⟩
  obtain ⟨h1, h2⟩ := h
  unfold parseQuestions
  dsimp only
  cases hc : (ls.foldl scanStep ([], none)).2 with
  | none => exact h1
  | some c =>
    dsimp only
    by_cases hct : c.text = ""
    · rw [if_neg (not_not_intro hct)]
      exact h1
    · rw [if_pos hct]
      rw [List.map_append, h1, List.map_cons, List.map_nil, h2 c hc]
      rw [List.length_append, List.length_cons, List.length_nil]
      rw [idsPattern_succ]

/-- C7: for every input, the parsed questions carry the sequential ids
`q1, q2, ...` in output order, regardless of anything the input text
implies. -/
theorem c7_sequential_question_ids :
    ∀ t : String, (convertTextToSurvey t).questions.map Question.id =
      idsPattern (convertTextToSurvey t).questions.length := by
  intro t
  unfold convertTextToSurvey
  dsimp only
  split
  · decide
  · exact parseQuestions_ids _

/-- C6 counterexample: the label regex is `^(Title|Survey|#):\s*` — the
colon sits outside the alternation, so a leading `#` without a colon is
not stripped (`"# T"` keeps its hash), and the description is the second
non-blank line trimmed, not verbatim. -/
theorem c6_counterexample_hash_and_verbatim :
    (convertTextToSurvey "# T\n  D  ").title = "# T" ∧
    (convertTextToSurvey "# T\n  D  ").description = "D" ∧
    ("# T" : String) ≠ "T" ∧ ("D" : String) ≠ "  D  " := by
  refine ⟨by decide, by decide, by decide, by decide⟩

/-- Case-insensitive starts-with on character lists. -/
def lowIsPre (lit : String) (cs : List Char) : Bool :=
  isPre (lit.data.map Char.toLower) (cs.map Char.toLower)

/-- The amended label-stripping rule as the spec sentence should read:
strip a leading case-insensitive `Title:`, `Survey:` or `#:` (the hash
also requires the colon) plus following whitespace. -/
def specStripLabel (cs : List Char) : List Char :=
  if lowIsPre "Title:" cs then (cs.drop "Title:".length).dropWhile isJsWs
  else if lowIsPre "Survey:" cs then (cs.drop "Survey:".length).dropWhile isJsWs
  else if lowIsPre "#:" cs then (cs.drop "#:".length).dropWhile isJsWs
  else cs

/-- Amended title: first non-blank line with the label stripped and the
result trimmed, falling back to `Untitled Survey` when there is no
non-blank line or the stripped title is empty. -/
def specTitle (lines : List String) : String :=
  match lines with
  | [] => "Untitled Survey"
  | l :: _ =>
    let t := jsTrim ⟨specStripLabel l.data⟩
    if t = "" then "Untitled Survey" else t

/-- Amended description: second non-blank line, trimmed (not verbatim),
falling back to `No description provided` when absent. -/
def specDescription (lines : List String) : String :=
  match lines with
  | _ :: l :: _ =>
    let d := jsTrim l
    if d = "" then "No description provided" else d
  | _ => "No description provided"

/-- The case-insensitive regex literal matcher agrees with
case-insensitive starts-with: it succeeds exactly when the lowered
pattern is a prefix of the lowered input, and then returns the input
with the pattern length dropped. -/
theorem ciMatch_spec (ps : List Char) :
    ∀ cs : List Char, ciMatch ps cs =
      if isPre (ps.map Char.toLower) (cs.map Char.toLower) then some (cs.drop ps.length)
      else none := by
  induction ps with
  | nil => intro cs; simp [ciMatch, isPre]
  | cons p ps ih =>
    intro cs
    cases cs with
    | nil => simp [ciMatch, isPre]
    | cons c cs' =>
      simp only [ciMatch, List.map_cons, isPre, List.drop_succ_cons, List.length_cons]
      by_cases h : c.toLower = p.toLower
      · rw [if_pos h, ih]
        have hb : (decide (p.toLower = c.toLower) && isPre (ps.map Char.toLower)
            (cs'.map Char.toLower)) = isPre (ps.map Char.toLower) (cs'.map Char.toLower) := by
          rw [decide_eq_true (h.symm), Bool.true_and]
        rw [hb]
      · rw [if_neg h]
        have hb : (decide (p.toLower = c.toLower) && isPre (ps.map Char.toLower)
            (cs'.map Char.toLower)) = false := by
          rw [decide_eq_false (fun he => h he.symm), Bool.false_and]
        rw [hb]
        simp

theorem stripLabel_eq (cs : List Char) : stripLabelRegex cs = specStripLabel cs := by
  unfold stripLabelRegex specStripLabel lowIsPre
  rw [ciMatch_spec, ciMatch_spec, ciMatch_spec]
  by_cases h1 : isPre ("Title:".data.map Char.toLower) (cs.map Char.toLower)
  · rw [if_pos h1, if_pos h1]
    rfl
  · rw [if_neg h1, if_neg h1]
    by_cases h2 : isPre ("Survey:".data.map Char.toLower) (cs.map Char.toLower)
    · rw [if_pos h2, if_pos h2]
      rfl
    · rw [if_neg h2, if_neg h2]
      by_cases h3 : isPre ("#:".data.map Char.toLower) (cs.map Char.toLower)
      · rw [if_pos h3, if_pos h3]
        rfl
      · rw [if_neg h3, if_neg h3]

/-- C6 amended: for every input, the parsed title is the first non-blank
line with a leading case-insensitive `Title:`, `Survey:` or `#:` label
(colon required after the hash) plus following whitespace stripped and
the result trimmed (fallback `Untitled Survey` when absent or empty
after stripping), and the parsed description is the second non-blank
line trimmed (fallback `No description provided` when absent). -/
theorem c6_amended_title_description :
    ∀ t : String,
    (convertTextToSurvey t).title = specTitle (filteredLines t) ∧
    (convertTextToSurvey t).description = specDescription (filteredLines t) := by
  intro t
  constructor
  · show titleOf (filteredLines t) = specTitle (filteredLines t)
    unfold titleOf specTitle
    cases filteredLines t with
    | nil => rfl
    | cons l rest =>
      dsimp only
      rw [stripLabel_eq]
  · show descOf (filteredLines t) = specDescription (filteredLines t)
    unfold descOf specDescription
    cases filteredLines t with
    | nil => rfl
    | cons l rest =>
      cases rest with
      | nil => rfl
      | cons l2 rest2 => rfl

theorem getVal_map_update (k : String) (v : Nat) :
    ∀ obj : List (String × Nat), (getVal obj k).isSome = true →
    getVal (obj.map (fun p => if p.1 = k then (k, v) else p)) k = some v := by
  intro obj
  induction obj with
  | nil => intro h; simp [getVal] at h
  | cons p ps ih =>
    intro h
    by_cases hp : p.1 = k
    · simp [getVal, hp]
    · simp only [getVal, if_neg hp] at h
      simp only [List.map_cons, if_neg hp, getVal, if_neg hp]
      exact ih h

theorem getVal_map_update_ne (k k' : String) (v : Nat) (hne : k' ≠ k) :
    ∀ obj : List (String × Nat),
    getVal (obj.map (fun p => if p.1 = k then (k, v) else p)) k' = getVal obj k' := by
  intro obj
  induction obj with
  | nil => rfl
  | cons p ps ih =>
    by_cases hp : p.1 = k
    · simp only [List.map_cons, if_pos hp, getVal]
      rw [if_neg (fun he : k = k' => hne he.symm),
        if_neg (fun he : p.1 = k' => hne (hp ▸ he).symm)]
      exact ih
    · simp only [List.map_cons, if_neg hp, getVal]
      by_cases hp' : p.1 = k'
      · rw [if_pos hp', if_pos hp']
      · rw [if_neg hp', if_neg hp']
        exact ih

theorem getVal_append_new (k : String) (v : Nat) :
    ∀ obj : List (String × Nat), getVal obj k = none →
    getVal (obj ++ [(k, v)]) k = some v := by
  intro obj
  induction obj with
  | nil => intro _; simp [getVal]
  | cons p ps ih =>
    intro h
    simp only [getVal] at h
    by_cases hp : p.1 = k
    · rw [if_pos hp] at h
      exact absurd h (by simp)
    · rw [if_neg hp] at h
      simp only [List.cons_append, getVal, if_neg hp]
      exact ih h

theorem getVal_append_ne (k k' : String) (v : Nat) (hne : k' ≠ k) :
    ∀ obj : List (String × Nat),
    getVal (obj ++ [(k, v)]) k' = getVal obj k' := by
  intro obj
  induction obj with
  | nil =>
    simp only [List.nil_append, getVal]
    rw [if_neg (fun he : k = k' => hne he.symm)]
  | cons p ps ih =>
    simp only [List.cons_append, getVal]
    by_cases hp' : p.1 = k'
    · rw [if_pos hp', if_pos hp']
    · rw [if_neg hp', if_neg hp']
      exact ih

theorem getVal_jsSet_self (obj : List (String × Nat)) (k : String) (v : Nat) :
    getVal (jsSet obj k v) k = some v := by
  unfold jsSet
  by_cases h : (getVal obj k).isSome
  · rw [if_pos h]
    exact getVal_map_update k v obj h
  · rw [if_neg h]
    exact getVal_append_new k v obj (Option.not_isSome_iff_eq_none.mp h)

theorem getVal_jsSet_ne (obj : List (String × Nat)) (k k' : String) (v : Nat)
    (hne : k' ≠ k) : getVal (jsSet obj k v) k' = getVal obj k' := by
  unfold jsSet
  by_cases h : (getVal obj k).isSome
  · rw [if_pos h]
    exact getVal_map_update_ne k k' v hne obj
  · rw [if_neg h]
    exact getVal_append_ne k k' v hne obj

theorem getVal_fold_count (rs : List String) :
    ∀ (obj : List (String × Nat)) (k : String), (getVal obj k).isSome = true →
    getVal (rs.foldl aggStep obj) k = some ((getVal obj k).getD 0 + rs.count k) := by
  induction rs with
  | nil =>
    intro obj k h
    obtain ⟨v, hv⟩ := Option.isSome_iff_exists.mp h
    simp [hv]
  | cons r rs ih =>
    intro obj k h
    rw [List.foldl_cons]
    by_cases hrk : r = k
    · subst hrk
      have h1 : getVal (aggStep obj r) r = some ((getVal obj r).getD 0 + 1) :=
        getVal_jsSet_self obj r _
      rw [ih _ _ (by rw [h1]; rfl), h1]
      simp only [Option.getD_some, Option.some.injEq, List.count_cons_self]
      omega
    · have h1 : getVal (aggStep obj r) k = getVal obj k :=
        getVal_jsSet_ne obj r k _ (fun he => hrk he.symm)
      rw [ih _ _ (by rw [h1]; exact h), h1]
      have hcnt : (r :: rs).count k = rs.count k := by
        rw [List.count_cons]
        simp only [beq_iff_eq, ite_eq_right_iff, Nat.add_eq_left]
        intro he
        exact absurd he hrk
      rw [hcnt]

/-- The five pre-seeded entries with arbitrary counts. -/
def fiveSeeded (c1 c2 c3 c4 c5 : Nat) : List (String × Nat) :=
  [("1", c1), ("2", c2), ("3", c3), ("4", c4), ("5", c5)]

/-- Shape of the tally object: the five pre-seeded keys first, in order,
then extra keys satisfying `P` and distinct from the pre-seeded ones. -/
def SeedShape (P : String → Prop) (obj : List (String × Nat)) : Prop :=
  ∃ c1 c2 c3 c4 c5 ex, obj = fiveSeeded c1 c2 c3 c4 c5 ++ ex ∧
    ∀ p ∈ ex, (p.1 ∉ (["1", "2", "3", "4", "5"] : List String)) ∧ P p.1

theorem seedShape_mono {P Q : String → Prop} (hPQ : ∀ k, P k → Q k) :
    ∀ {obj}, SeedShape P obj → SeedShape Q obj := by
  rintro obj ⟨c1, c2, c3, c4, c5, ex, rfl, hex⟩
  exact ⟨c1, c2, c3, c4, c5, ex, rfl,
    fun p hp => ⟨(hex p hp).1, hPQ _ (hex p hp).2⟩⟩

theorem seedShape_step (r : String) {P : String → Prop} {obj : List (String × Nat)}
    (hs : SeedShape P obj) : SeedShape (fun k => P k ∨ k = r) (aggStep obj r) := by
  obtain ⟨c1, c2, c3, c4, c5, ex, rfl, hex⟩ := hs
  unfold aggStep jsSet
  by_cases h : (getVal (fiveSeeded c1 c2 c3 c4 c5 ++ ex) r).isSome
  · rw [if_pos h]
    rw [List.map_append]
    have hpair : ∀ (k : String) (c v : Nat),
        (if (k, c).1 = r then (r, v) else (k, c)) = (k, if k = r then v else c) := by
      intro k c v
      by_cases hk : k = r
      · subst hk; simp
      · simp [hk]
    refine ⟨if "1" = r then (getVal (fiveSeeded c1 c2 c3 c4 c5 ++ ex) r).getD 0 + 1 else c1,
      if "2" = r then (getVal (fiveSeeded c1 c2 c3 c4 c5 ++ ex) r).getD 0 + 1 else c2,
      if "3" = r then (getVal (fiveSeeded c1 c2 c3 c4 c5 ++ ex) r).getD 0 + 1 else c3,
      if "4" = r then (getVal (fiveSeeded c1 c2 c3 c4 c5 ++ ex) r).getD 0 + 1 else c4,
      if "5" = r then (getVal (fiveSeeded c1 c2 c3 c4 c5 ++ ex) r).getD 0 + 1 else c5,
      ex.map (fun p => if p.1 = r
        then (r, (getVal (fiveSeeded c1 c2 c3 c4 c5 ++ ex) r).getD 0 + 1) else p), ?_, ?_⟩
    · simp only [fiveSeeded, List.map_cons, List.map_nil, hpair]
    · intro p hp
      obtain ⟨q, hq, rfl⟩ := List.mem_map.mp hp
      have hkey : (if q.1 = r then (r, ((getVal (fiveSeeded c1 c2 c3 c4 c5 ++ ex) r).getD 0 + 1))
          else q).1 = q.1 := by
        by_cases hq1 : q.1 = r
        · rw [if_pos hq1]; exact hq1.symm
        · rw [if_neg hq1]
      rw [hkey]
      exact ⟨(hex q hq).1, Or.inl (hex q hq).2⟩
  · rw [if_neg h]
    rw [List.append_assoc]
    refine ⟨c1, c2, c3, c4, c5,
      ex ++ [(r, (getVal (fiveSeeded c1 c2 c3 c4 c5 ++ ex) r).getD 0 + 1)], rfl, ?_⟩
    intro p hp
    rcases List.mem_append.mp hp with hp | hp
    · exact ⟨(hex p hp).1, Or.inl (hex p hp).2⟩
    · have hp' : p = (r, (getVal (fiveSeeded c1 c2 c3 c4 c5 ++ ex) r).getD 0 + 1) := by
        simpa using hp
      subst hp'
      have hnone := Option.not_isSome_iff_eq_none.mp h
      refine ⟨?_, Or.inr rfl⟩
      intro hmem
      have hsome : (getVal (fiveSeeded c1 c2 c3 c4 c5 ++ ex) r).isSome = true := by
        fin_cases hmem <;> simp [fiveSeeded, getVal]
      rw [hnone] at hsome
      exact absurd hsome (by simp)

theorem seedShape_foldl (rs : List String) :
    ∀ (P : String → Prop) (obj : List (String × Nat)), SeedShape P obj →
    SeedShape (fun k => P k ∨ k ∈ rs) (rs.foldl aggStep obj) := by
  induction rs with
  | nil =>
    intro P obj h
    exact seedShape_mono (fun k hk => Or.inl hk) h
  | cons r rs ih =>
    intro P obj h
    rw [List.foldl_cons]
    refine seedShape_mono ?_ (ih _ _ (seedShape_step r h))
    intro k hk
    rcases hk with (hk | hk) | hk
    · exact Or.inl hk
    · exact Or.inr (hk ▸ List.mem_cons_self r rs)
    · exact Or.inr (List.mem_cons_of_mem r hk)

theorem aggRating_shape (rs : List String) :
    SeedShape (fun k => k ∈ rs) (aggRating rs) := by
  have h0 : SeedShape (fun _ => False) ratingSeed := by
    refine ⟨0, 0, 0, 0, 0, [], by simp [ratingSeed, fiveSeeded], ?_⟩
    intro p hp
    cases hp
  exact seedShape_mono (fun k hk => hk.elim False.elim id)
    (seedShape_foldl rs _ _ h0)

theorem mem_insIdx {q p : String × Nat} :
    ∀ {l : List (String × Nat)}, q ∈ insIdx p l → q = p ∨ q ∈ l := by
  intro l
  induction l with
  | nil =>
    intro h
    simp [insIdx] at h
    exact Or.inl h
  | cons x xs ih =>
    intro h
    unfold insIdx at h
    split at h
    · rcases List.mem_cons.mp h with h | h
      · exact Or.inl h
      · exact Or.inr h
    · rcases List.mem_cons.mp h with h | h
      · exact Or.inr (h ▸ List.mem_cons_self x xs)
      · rcases ih h with h | h
        · exact Or.inl h
        · exact Or.inr (List.mem_cons_of_mem x h)

theorem sortIdx_cons (x : String × Nat) (l : List (String × Nat)) :
    sortIdx (x :: l) = insIdx x (sortIdx l) := rfl

theorem mem_sortIdx {q : String × Nat} :
    ∀ {l : List (String × Nat)}, q ∈ sortIdx l → q ∈ l := by
  intro l
  induction l with
  | nil => intro h; exact h
  | cons x xs ih =>
    intro h
    rw [sortIdx_cons] at h
    rcases mem_insIdx h with h | h
    · exact h ▸ List.mem_cons_self x xs
    · exact List.mem_cons_of_mem x (ih h)

theorem insIdx_front (p : String × Nat) (l : List (String × Nat))
    (h : ∀ q ∈ l, keyNat p.1 ≤ keyNat q.1) : insIdx p l = p :: l := by
  cases l with
  | nil => rfl
  | cons x xs =>
    unfold insIdx
    rw [if_pos (h x (List.mem_cons_self x xs))]

theorem sortIdx_five_front (c1 c2 c3 c4 c5 : Nat) (ex : List (String × Nat))
    (h : ∀ p ∈ ex, 6 ≤ keyNat p.1) :
    sortIdx (fiveSeeded c1 c2 c3 c4 c5 ++ ex) =
      fiveSeeded c1 c2 c3 c4 c5 ++ sortIdx ex := by
  have hex : ∀ q ∈ sortIdx ex, 6 ≤ keyNat q.1 := fun q hq => h q (mem_sortIdx hq)
  have e5 : insIdx ("5", c5) (sortIdx ex) = ("5", c5) :: sortIdx ex := by
    refine insIdx_front _ _ ?_
    intro q hq
    have h6 := hex q hq
    have h5 : keyNat ("5", c5).1 = 5 := rfl
    omega
  have e4 : insIdx ("4", c4) (("5", c5) :: sortIdx ex) =
      ("4", c4) :: ("5", c5) :: sortIdx ex := by
    refine insIdx_front _ _ ?_
    intro q hq
    rcases List.mem_cons.mp hq with rfl | hq
    · exact Nat.le_of_sub_eq_zero rfl
    · have h6 := hex q hq
      have h4 : keyNat ("4", c4).1 = 4 := rfl
      omega
  have e3 : insIdx ("3", c3) (("4", c4) :: ("5", c5) :: sortIdx ex) =
      ("3", c3) :: ("4", c4) :: ("5", c5) :: sortIdx ex := by
    refine insIdx_front _ _ ?_
    intro q hq
    rcases List.mem_cons.mp hq with rfl | hq
    · exact Nat.le_of_sub_eq_zero rfl
    rcases List.mem_cons.mp hq with rfl | hq
    · exact Nat.le_of_sub_eq_zero rfl
    · have h6 := hex q hq
      have h3 : keyNat ("3", c3).1 = 3 := rfl
      omega
  have e2 : insIdx ("2", c2) (("3", c3) :: ("4", c4) :: ("5", c5) :: sortIdx ex) =
      ("2", c2) :: ("3", c3) :: ("4", c4) :: ("5", c5) :: sortIdx ex := by
    refine insIdx_front _ _ ?_
    intro q hq
    rcases List.mem_cons.mp hq with rfl | hq
    · exact Nat.le_of_sub_eq_zero rfl
    rcases List.mem_cons.mp hq with rfl | hq
    · exact Nat.le_of_sub_eq_zero rfl
    rcases List.mem_cons.mp hq with rfl | hq
    · exact Nat.le_of_sub_eq_zero rfl
    · have h6 := hex q hq
      have h2 : keyNat ("2", c2).1 = 2 := rfl
      omega
  have e1 : insIdx ("1", c1)
        (("2", c2) :: ("3", c3) :: ("4", c4) :: ("5", c5) :: sortIdx ex) =
      ("1", c1) :: ("2", c2) :: ("3", c3) :: ("4", c4) :: ("5", c5) :: sortIdx ex := by
    refine insIdx_front _ _ ?_
    intro q hq
    rcases List.mem_cons.mp hq with rfl | hq
    · exact Nat.le_of_sub_eq_zero rfl
    rcases List.mem_cons.mp hq with rfl | hq
    · exact Nat.le_of_sub_eq_zero rfl
    rcases List.mem_cons.mp hq with rfl | hq
    · exact Nat.le_of_sub_eq_zero rfl
    rcases List.mem_cons.mp hq with rfl | hq
    · exact Nat.le_of_sub_eq_zero rfl
    · have h6 := hex q hq
      have h1 : keyNat ("1", c1).1 = 1 := rfl
      omega
  show sortIdx (("1", c1) :: ("2", c2) :: ("3", c3) :: ("4", c4) :: ("5", c5) :: ex) = _
  rw [sortIdx_cons, sortIdx_cons, sortIdx_cons, sortIdx_cons, sortIdx_cons]
  rw [e5, e4, e3, e2, e1]
  rfl

theorem digits_foldl_ge (cs : List Char) :
    ∀ n : Nat, n ≤ cs.foldl (fun m c => m * 10 + (c.toNat - 48)) n := by
  induction cs with
  | nil => intro n; exact Nat.le_refl n
  | cons c cs ih =>
    intro n
    rw [List.foldl_cons]
    exact Nat.le_trans (by omega) (ih (n * 10 + (c.toNat - 48)))

theorem char_digit_bounds (c : Char) (h : c.isDigit = true) :
    48 ≤ c.toNat ∧ c.toNat ≤ 57 := by
  simp only [Char.isDigit, Bool.and_eq_true, decide_eq_true_eq] at h
  exact ⟨h.1, h.2⟩

theorem char_of_toNat {c d : Char} (h : c.toNat = d.toNat) : c = d :=
  Char.ext (UInt32.ext h)

/-- A canonical array-index key whose numeric value is below 6 is one of
the strings "0" through "5". -/
theorem idxKey_small (s : String) (hidx : isIdxKey s = true) (hlt : keyNat s < 6) :
    s = "0" ∨ s = "1" ∨ s = "2" ∨ s = "3" ∨ s = "4" ∨ s = "5" := by
  obtain ⟨cs⟩ := s
  unfold isIdxKey at hidx
  dsimp only at hidx
  cases cs with
  | nil => simp at hidx
  | cons c rest =>
    dsimp only at hidx
    by_cases hc : c = '0'
    · rw [if_pos hc] at hidx
      cases rest with
      | nil =>
        subst hc
        exact Or.inl (by decide)
      | cons c2 rest2 => simp at hidx
    · rw [if_neg hc] at hidx
      simp only [Bool.and_eq_true, decide_eq_true_eq, List.all_cons] at hidx
      obtain ⟨⟨hcd, hall⟩, _⟩ := hidx
      obtain ⟨hc48, hc57⟩ := char_digit_bounds c hcd
      have hcne : c.toNat ≠ 48 := fun he => hc (char_of_toNat he)
      cases rest with
      | nil =>
        have hkey : keyNat ⟨[c]⟩ = c.toNat - 48 := by
          simp [keyNat, digitsVal]
        rw [hkey] at hlt
        have hcases : c.toNat = 49 ∨ c.toNat = 50 ∨ c.toNat = 51 ∨
            c.toNat = 52 ∨ c.toNat = 53 := by omega
        rcases hcases with h | h | h | h | h
        · exact Or.inr (Or.inl (by rw [@char_of_toNat c '1' h]))
        · exact Or.inr (Or.inr (Or.inl (by rw [@char_of_toNat c '2' h])))
        · exact Or.inr (Or.inr (Or.inr (Or.inl (by rw [@char_of_toNat c '3' h]))))
        · exact Or.inr (Or.inr (Or.inr (Or.inr (Or.inl (by rw [@char_of_toNat c '4' h])))))
        · exact Or.inr (Or.inr (Or.inr (Or.inr (Or.inr (by rw [@char_of_toNat c '5' h])))))
      | cons c2 rest2 =>
        exfalso
        have hkey : keyNat ⟨c :: c2 :: rest2⟩ =
            (c2 :: rest2).foldl (fun m ch => m * 10 + (ch.toNat - 48)) (c.toNat - 48) := by
          simp [keyNat, digitsVal]
        have h10 : 10 ≤ keyNat ⟨c :: c2 :: rest2⟩ := by
          rw [hkey, List.foldl_cons]
          refine Nat.le_trans ?_ (digits_foldl_ge rest2 _)
          omega
        omega

/-- An extra tally key that is a canonical array index, differs from the
five seeded keys and is not "0" has numeric value at least 6. -/
theorem exKey_ge6 (s : String) (hidx : isIdxKey s = true)
    (hnot : s ∉ (["1", "2", "3", "4", "5"] : List String)) (hnz : s ≠ "0") :
    6 ≤ keyNat s := by
  by_contra hlt
  push_neg at hlt
  rcases idxKey_small s hidx hlt with h | h | h | h | h | h
  · exact hnz h
  all_goals exact hnot (by rw [h]; decide)

/-- `const questionResponses = responses.flatMap(r => r.answers.filter(a
=> a.question_id === question.id))`, read as response strings. -/
def questionResponses (responses : List SurveyResponseData) (qid : String) :
    List String :=
  (responses.flatMap (fun r => r.answers.filter (fun a => a.question_id = qid))).map
    (fun a => a.response)

theorem getVal_fiveSeeded_append (c1 c2 c3 c4 c5 : Nat) (ex : List (String × Nat)) :
    getVal (fiveSeeded c1 c2 c3 c4 c5 ++ ex) "1" = some c1 ∧
    getVal (fiveSeeded c1 c2 c3 c4 c5 ++ ex) "2" = some c2 ∧
    getVal (fiveSeeded c1 c2 c3 c4 c5 ++ ex) "3" = some c3 ∧
    getVal (fiveSeeded c1 c2 c3 c4 c5 ++ ex) "4" = some c4 ∧
    getVal (fiveSeeded c1 c2 c3 c4 c5 ++ ex) "5" = some c5 :=
  ⟨rfl, rfl, rfl, rfl, rfl⟩

theorem getVal_aggRating (rs : List String) (k : String)
    (hk : k ∈ (["1", "2", "3", "4", "5"] : List String)) :
    getVal (aggRating rs) k = some (rs.count k) := by
  have hsome : (getVal ratingSeed k).isSome = true := by
    fin_cases hk <;> rfl
  have hz : (getVal ratingSeed k).getD 0 = 0 := by
    fin_cases hk <;> rfl
  have h := getVal_fold_count rs ratingSeed k hsome
  rw [show aggRating rs = rs.foldl aggStep ratingSeed from rfl, h, hz, Nat.zero_add]

theorem filter_idx_fiveSeeded (c1 c2 c3 c4 c5 : Nat) :
    (fiveSeeded c1 c2 c3 c4 c5).filter (fun p => isIdxKey p.1) =
      fiveSeeded c1 c2 c3 c4 c5 := rfl

theorem filter_nonidx_fiveSeeded (c1 c2 c3 c4 c5 : Nat) :
    (fiveSeeded c1 c2 c3 c4 c5).filter (fun p => !isIdxKey p.1) = [] := rfl

theorem ratingData_take_five (rs : List String) (h0 : "0" ∉ rs) :
    (ratingData rs).take 5 =
      [("1", rs.count "1"), ("2", rs.count "2"), ("3", rs.count "3"),
       ("4", rs.count "4"), ("5", rs.count "5")] := by
  obtain ⟨c1, c2, c3, c4, c5, ex, heq, hex⟩ := aggRating_shape rs
  have hgv := getVal_fiveSeeded_append c1 c2 c3 c4 c5 ex
  have h1 : c1 = rs.count "1" := by
    have hv := getVal_aggRating rs "1" (by decide)
    rw [heq, hgv.1] at hv
    exact Option.some_inj.mp hv
  have h2 : c2 = rs.count "2" := by
    have hv := getVal_aggRating rs "2" (by decide)
    rw [heq, hgv.2.1] at hv
    exact Option.some_inj.mp hv
  have h3 : c3 = rs.count "3" := by
    have hv := getVal_aggRating rs "3" (by decide)
    rw [heq, hgv.2.2.1] at hv
    exact Option.some_inj.mp hv
  have h4 : c4 = rs.count "4" := by
    have hv := getVal_aggRating rs "4" (by decide)
    rw [heq, hgv.2.2.2.1] at hv
    exact Option.some_inj.mp hv
  have h5 : c5 = rs.count "5" := by
    have hv := getVal_aggRating rs "5" (by decide)
    rw [heq, hgv.2.2.2.2] at hv
    exact Option.some_inj.mp hv
  have hexP : ∀ p ∈ ex.filter (fun p => isIdxKey p.1), 6 ≤ keyNat p.1 := by
    intro p hp
    have hm := List.mem_filter.mp hp
    have hq := hex p hm.1
    refine exKey_ge6 p.1 hm.2 hq.1 ?_
    intro he
    exact h0 (he ▸ hq.2)
  unfold ratingData jsEntries
  rw [heq]
  rw [List.filter_append, List.filter_append]
  rw [filter_idx_fiveSeeded, filter_nonidx_fiveSeeded]
  rw [sortIdx_five_front c1 c2 c3 c4 c5 _ hexP]
  rw [List.nil_append, List.append_assoc]
  rw [h1, h2, h3, h4, h5]
  rw [show (5 : Nat) = (fiveSeeded (rs.count "1") (rs.count "2") (rs.count "3")
    (rs.count "4") (rs.count "5")).length from rfl]
  rw [List.take_left]
  rfl

/-- C4 counterexample: a rating answer `"0"` (the NPS-style rating UI
offers 0..10 for rating questions) becomes an array-index key that
iterates before the pre-seeded keys "1".."5" in `Object.entries`, so
"pre-seeded keys iterate first" fails. -/
theorem c4_counterexample_zero_iterates_first :
    ratingData (questionResponses [⟨"r1", "t", [⟨"q1", "0"⟩]⟩] "q1") =
      [("0", 1), ("1", 0), ("2", 0), ("3", 0), ("4", 0), ("5", 0)] ∧
    (ratingData (questionResponses [⟨"r1", "t", [⟨"q1", "0"⟩]⟩] "q1")).head? =
      some ("0", 1) := by
  refine ⟨by decide, by decide⟩

/-- C4 amended: for every rating question, the tally pre-seeds "1".."5"
at zero and increments by literal response string; the first five
entries of the output are the labels "1".."5" in ascending order with
the response counts — provided no response is the literal string "0"
(a "0" key iterates before the pre-seeded keys; other extra keys sort
or insert after them). -/
theorem c4_amended_rating_tally :
    ∀ (responses : List SurveyResponseData) (qid : String),
    "0" ∉ questionResponses responses qid →
    (ratingData (questionResponses responses qid)).take 5 =
      [("1", (questionResponses responses qid).count "1"),
       ("2", (questionResponses responses qid).count "2"),
       ("3", (questionResponses responses qid).count "3"),
       ("4", (questionResponses responses qid).count "4"),
       ("5", (questionResponses responses qid).count "5")] := by
  intro responses qid h0
  exact ratingData_take_five _ h0

/-- Witness for the amended C4 at the spec's example `["1","1","3"]`:
counts 1↦2, 2↦0, 3↦1, 4↦0, 5↦0. -/
theorem c4_amended_rating_tally_witness :
    ("0" : String) ∉ questionResponses
      [⟨"r1", "t", [⟨"q1", "1"⟩, ⟨"q1", "1"⟩, ⟨"q1", "3"⟩]⟩] "q1" ∧
    (ratingData (questionResponses
        [⟨"r1", "t", [⟨"q1", "1"⟩, ⟨"q1", "1"⟩, ⟨"q1", "3"⟩]⟩] "q1")).take 5 =
      [("1", 2), ("2", 0), ("3", 1), ("4", 0), ("5", 0)] := by
  refine ⟨by decide, ?_⟩
  exact (c4_amended_rating_tally
    [⟨"r1", "t", [⟨"q1", "1"⟩, ⟨"q1", "1"⟩, ⟨"q1", "3"⟩]⟩] "q1" (by decide)).trans
    (by decide)
